import Mathlib

/-!
Shallow embedding of the asset-manager backend (Python/FastAPI/SQLAlchemy),
covering the authorization engine (`asset_manager/core/authz_utils.py`), the
repository queries (`asset_manager/repositories/*.py`) and the lifecycle route
handlers (`asset_manager/routes/*.py`) that the verified claims refer to.

Conventions of the embedding:
* database tables become Lean lists of records; SQLAlchemy `filter(...).all()`
  becomes `List.filter`, `.first()` becomes `List.find?`;
* ORM row mutation (`repo.update(item, {...})`) becomes an id-keyed functional
  update of the corresponding list;
* route handlers raising `HTTPException` become functions into `Except Err _`
  with `Err` distinguishing 404 / 403 / 409, mirroring the status codes used;
* datetimes are integers (seconds since epoch, UTC); `timedelta(days=n)` is
  `n * 86400`.
-/

namespace AssetManager

/-- A role grant row (`asset_manager/db/models/role.py`), as seen through the
ORM relationship `user.roles`: only the `role` name and `scope` fields are
read by the authorization check. -/
structure Role where
  role : String
  scope : String
deriving DecidableEq, Repr

/-- A user as consumed by `has_role`: the authenticated principal with its
eagerly-loaded role grants. -/
structure User where
  id : Nat
  roles : List Role
deriving DecidableEq, Repr

/-- The scope strings the user holds for a given role name: embedding of the
loop in `has_role` that collects `role_obj.scope` for each `role_obj` with
`role_obj.role == role` (`core/authz_utils.py:53-57`).  The Python code builds
a `set`; a list with membership queries is observationally identical. -/
def scopesFor (user : User) (role : String) : List String :=
  (user.roles.filter (fun r => r.role == role)).map Role.scope

/-- Embedding of `has_role` (`core/authz_utils.py:51-59`):
`return "*" in scopes or all(label in scopes for label in labels)`. -/
def has_role (user : User) (role : String) (labels : List String) : Bool :=
  let scopes := scopesFor user role
  scopes.contains "*" || labels.all (fun label => scopes.contains label)

/-! ### Relational model for the listing queries -/

/-- A label row (`db/models/label.py`): id and unique name. -/
structure LabelRow where
  id : Nat
  name : String
deriving DecidableEq, Repr

/-- A label-mapping row (`db/models/label_mapping.py`), attaching label
`label_id` to the asset or user `item_id`. -/
structure LabelMapping where
  item_id : Nat
  label_id : Nat
deriving DecidableEq, Repr

/-- A role row as stored in the `roles` table, queried by `RoleRepository`. -/
structure RoleRow where
  user_id : Nat
  role : String
  scope : String
deriving DecidableEq, Repr

/-- An asset row (`db/models/asset.py`).  `labels` embeds the ORM relationship
`asset.labels` (the label *names*, which is all the route handlers read from
it); the SQL-level label joins used by listing queries go through the
`LabelMapping` table instead, exactly as in the source. -/
structure Asset where
  id : Nat
  status : String
  labels : List String
  last_maintenance : Int
  maintenance_rate : Nat
  is_deleted : Bool
deriving DecidableEq, Repr

/-- The slice of the database visible to the listing endpoints. -/
structure DB where
  assets : List Asset
  labelRows : List LabelRow
  assetLabels : List LabelMapping
  roleRows : List RoleRow
deriving DecidableEq, Repr

/-- Embedding of `get_assets_by_labels` (`core/authz_utils.py:15-22`): the SQL predicate
`~exists(select ... where LabelMappingAsset.item_id == Asset.id and
LabelMappingAsset.label_id.notin_(labels))`, evaluated for the asset with id
`assetId` against the mapping table. -/
def get_assets_by_labels (labels : List Nat) (mappings : List LabelMapping)
    (assetId : Nat) : Bool :=
  !(mappings.any (fun m => m.item_id == assetId && !(labels.contains m.label_id)))

/-- Embedding of `get_labels_by_roles` (`core/authz_utils.py:45-48`):
`db.query(Label.id).filter(Label.name.in_(roles)).all()`. -/
def get_labels_by_roles (db : DB) (roles : List String) : List Nat :=
  (db.labelRows.filter (fun l => roles.contains l.name)).map LabelRow.id

/-- Embedding of `RoleRepository.get_roles` (`repositories/role_repo.py:44-48`):
`query(Role).filter(Role.user_id == user_id, Role.role == role).all()`. -/
def RoleRepository.get_roles (db : DB) (user_id : Nat) (role : String) :
    List RoleRow :=
  db.roleRows.filter (fun r => r.user_id == user_id && r.role == role)

/-- Embedding of `RoleRepository.get_role` (`repositories/role_repo.py:32-38`): the same
filter narrowed by scope, with `.first()`. -/
def RoleRepository.get_role (db : DB) (user_id : Nat) (role scope : String) :
    Option RoleRow :=
  db.roleRows.find?
    (fun r => r.user_id == user_id && r.scope == scope && r.role == role)

/-- Embedding of `RoleRepository.has_scope_all` (`repositories/role_repo.py:40-42`). -/
def RoleRepository.has_scope_all (db : DB) (user_id : Nat) (role : String) :
    Bool :=
  (RoleRepository.get_role db user_id role "*").isSome

/-- Embedding of `AbstractCRUDRepo.get_all` specialised to assets
(`repositories/abstract_crud_repo.py:27-42`): apply the optional subquery
predicate and exclude soft-deleted rows.  The only asset subquery the routes
build is `get_assets_by_labels`, which depends on the row only through its id,
so the subquery is modelled as a predicate on asset ids. -/
def get_all_assets (db : DB) (subquery : Option (Nat → Bool)) : List Asset :=
  db.assets.filter
    (fun a =>
      (match subquery with
       | some f => f a.id
       | none => true) && !a.is_deleted)

/-- Result of a listing endpoint: 403 or the returned collection. -/
inductive ListingResult where
  | forbidden
  | ok (items : List Asset)
deriving DecidableEq, Repr

/-- Embedding of `get_assets` (`routes/assets.py:46-67`): wildcard holders list everything
(minus soft-deleted); otherwise zero scopes is 403; otherwise the listing is
filtered by the label-subset subquery. -/
def get_assets (db : DB) (user_id : Nat) : ListingResult :=
  if RoleRepository.has_scope_all db user_id "ReadAsset" then
    .ok (get_all_assets db none)
  else
    let roles := (RoleRepository.get_roles db user_id "ReadAsset").map RoleRow.scope
    if roles.length = 0 then
      .forbidden
    else
      .ok (get_all_assets db
        (some (get_assets_by_labels (get_labels_by_roles db roles) db.assetLabels)))

/-- Embedding of `AssetRepository.get_due_for_maintenance`
(`repositories/asset_repo.py:32-44`): fetch the candidates through `get_all`
and keep those with `last_maintenance + timedelta(days=maintenance_rate) <
now`. -/
def get_due_for_maintenance (db : DB) (subquery : Option (Nat → Bool))
    (now : Int) : List Asset :=
  (get_all_assets db subquery).filter
    (fun a => decide (a.last_maintenance + (a.maintenance_rate : Int) * 86400 < now))

/-- Embedding of `assets_due_for_maintenance` (`routes/maintenance.py:99-135`): the same
wildcard / zero-scope / filtered-listing structure as `get_assets`, delegating
to `get_due_for_maintenance`. -/
def assets_due_for_maintenance (db : DB) (user_id : Nat) (now : Int) :
    ListingResult :=
  if RoleRepository.has_scope_all db user_id "ReadAsset" then
    .ok (get_due_for_maintenance db none now)
  else
    let roles := (RoleRepository.get_roles db user_id "ReadAsset").map RoleRow.scope
    if roles.length = 0 then
      .forbidden
    else
      .ok (get_due_for_maintenance db
        (some (get_assets_by_labels (get_labels_by_roles db roles) db.assetLabels))
        now)

/-! ### Lifecycle state machine -/

/-- A request row (`db/models/request.py`). -/
structure Request where
  id : Nat
  asset_id : Nat
  user_id : Nat
  status : String
  approved_by : Option Nat
deriving DecidableEq, Repr

/-- An asset-assignment row (`db/models/assignment.py`). -/
structure Assignment where
  id : Nat
  asset_id : Nat
  user_id : Nat
  assigned_by_id : Nat
  due_date : Int
  returned_at : Option Int
  request_id : Option Nat
deriving DecidableEq, Repr

/-- The mutable state the lifecycle routes operate on.  `nextAssignmentId`
models the autoincrement primary key of the `asset_assignments` table. -/
structure State where
  assets : List Asset
  requests : List Request
  assignments : List Assignment
  nextAssignmentId : Nat
deriving DecidableEq, Repr

/-- Error taxonomy of the route handlers, keyed by HTTP status code. -/
inductive Err where
  | notFound
  | forbidden
  | conflict
deriving DecidableEq, Repr

/-- Embedding of `AbstractCRUDRepo.get_by_id` for assets (`db.get` by primary key). -/
def getAsset (s : State) (asset_id : Nat) : Option Asset :=
  s.assets.find? (fun a => a.id == asset_id)

/-- Embedding of `AbstractCRUDRepo.get_by_id` for requests. -/
def getRequest (s : State) (request_id : Nat) : Option Request :=
  s.requests.find? (fun r => r.id == request_id)

/-- Embedding of `AbstractCRUDRepo.get_by_id` for assignments. -/
def getAssignmentById (s : State) (assignment_id : Nat) : Option Assignment :=
  s.assignments.find? (fun a => a.id == assignment_id)

/-- Embedding of `AssetAssignmentRepository.get_asset_assignment`
(`repositories/assignment_repo.py:43-52`): first assignment with
`returned_at == None` and the given asset id. -/
def get_asset_assignment (s : State) (asset_id : Nat) : Option Assignment :=
  s.assignments.find? (fun a => a.returned_at == none && a.asset_id == asset_id)

/-- Embedding of `asset_repo.update(asset, {"status": st})`: id-keyed row update. -/
def updateAssetStatus (s : State) (asset_id : Nat) (st : String) : State :=
  { s with
    assets := s.assets.map
      (fun a => if a.id == asset_id then { a with status := st } else a) }

/-- Embedding of `asset_repo.update(asset, {"status": st, "last_maintenance": t})`
as done by the maintenance check-in route. -/
def updateAssetStatusMaint (s : State) (asset_id : Nat) (st : String)
    (t : Int) : State :=
  { s with
    assets := s.assets.map
      (fun a =>
        if a.id == asset_id then { a with status := st, last_maintenance := t }
        else a) }

/-- Embedding of `request_repo.update(request, {"status": st})`. -/
def updateRequestStatus (s : State) (request_id : Nat) (st : String) : State :=
  { s with
    requests := s.requests.map
      (fun r => if r.id == request_id then { r with status := st } else r) }

/-- Embedding of `request_repo.update(request, {"status": st, "approved_by": uid})`. -/
def updateRequestDecision (s : State) (request_id : Nat) (st : String)
    (uid : Nat) : State :=
  { s with
    requests := s.requests.map
      (fun r =>
        if r.id == request_id then { r with status := st, approved_by := some uid }
        else r) }

/-- Embedding of `assignment_repo.update(assignment, {"returned_at": t})`. -/
def setAssignmentReturned (s : State) (assignment_id : Nat) (t : Int) : State :=
  { s with
    assignments := s.assignments.map
      (fun a =>
        if a.id == assignment_id then { a with returned_at := some t } else a) }

/-- Embedding of `check_out_asset` (`routes/assignments.py:120-162`): direct check-out.
404 if the asset is missing, 403 on the label check, 409 unless the status is
`Available`; then status becomes `In Use` and a fresh active assignment is
created (`AssetAssignmentRepository.check_out_asset`,
`repositories/assignment_repo.py:18-28`, `due_date = today + due_in_days`). -/
def check_out_asset (s : State) (current_user : User)
    (asset_id user_id due_in_days : Nat) (today : Int) :
    Except Err (State × Assignment) :=
  match getAsset s asset_id with
  | none => .error .notFound
  | some asset =>
    if has_role current_user "CheckInOutAsset" asset.labels then
      if asset.status = "Available" then
        let assignment : Assignment :=
          { id := s.nextAssignmentId
            asset_id := asset.id
            user_id := user_id
            assigned_by_id := current_user.id
            due_date := today + (due_in_days : Int)
            returned_at := none
            request_id := none }
        let s1 := updateAssetStatus s asset.id "In Use"
        .ok ({ s1 with
                assignments := s1.assignments ++ [assignment]
                nextAssignmentId := s1.nextAssignmentId + 1 },
             assignment)
      else .error .conflict
    else .error .forbidden

/-- Embedding of `check_out_request` (`routes/assignments.py:165-218`): check-out via a
request.  404 if the request is missing, 403 on the label check against the
request's asset, 409 unless the asset status is `Reserved`; then the asset
becomes `In Use`, the request becomes `Fulfilled` (only its status is
updated), and an assignment carrying `request_id` is created
(`check_out_asset_request`, `repositories/assignment_repo.py:30-41`).  Note
the handler never inspects `request.status`.  The ORM guarantees
`request.asset` resolves; an ill-formed state without the asset row is mapped
to `notFound`. -/
def check_out_request (s : State) (current_user : User)
    (request_id due_in_days : Nat) (today : Int) :
    Except Err (State × Assignment) :=
  match getRequest s request_id with
  | none => .error .notFound
  | some request =>
    match getAsset s request.asset_id with
    | none => .error .notFound
    | some asset =>
      if has_role current_user "CheckInOutAsset" asset.labels then
        if asset.status = "Reserved" then
          let s1 := updateAssetStatus s asset.id "In Use"
          let s2 := updateRequestStatus s1 request.id "Fulfilled"
          let assignment : Assignment :=
            { id := s2.nextAssignmentId
              asset_id := asset.id
              user_id := request.user_id
              assigned_by_id := current_user.id
              due_date := today + (due_in_days : Int)
              returned_at := none
              request_id := some request.id }
          .ok ({ s2 with
                  assignments := s2.assignments ++ [assignment]
                  nextAssignmentId := s2.nextAssignmentId + 1 },
               assignment)
        else .error .conflict
      else .error .forbidden

/-- Embedding of `check_in_asset_by_asset_id` (`routes/assignments.py:31-71`): 404 if the
asset is missing, 403 on the label check, 409 when
`asset.status != "In Use" or assignment is None`; then the asset becomes
`Available` and the active assignment's `returned_at` is set to now. -/
def check_in_asset_by_asset_id (s : State) (current_user : User)
    (asset_id : Nat) (now : Int) : Except Err (State × Assignment) :=
  match getAsset s asset_id with
  | none => .error .notFound
  | some asset =>
    if has_role current_user "CheckInOutAsset" asset.labels then
      match get_asset_assignment s asset_id with
      | none => .error .conflict
      | some assignment =>
        if asset.status = "In Use" then
          let s1 := updateAssetStatus s asset.id "Available"
          .ok (setAssignmentReturned s1 assignment.id now,
               { assignment with returned_at := some now })
        else .error .conflict
    else .error .forbidden

/-- Embedding of `check_in_asset_by_assignment_id` (`routes/assignments.py:74-117`): a 409
(not 404) if the assignment id does not resolve, 403 on the label check
against `assignment.asset`, 409 unless that asset's status is `In Use`; then
the asset becomes `Available` and the assignment's `returned_at` is
(re)written with now — the handler never reads the assignment's current
`returned_at`, so historical assignments are accepted. -/
def check_in_asset_by_assignment_id (s : State) (current_user : User)
    (asset_assignment_id : Nat) (now : Int) : Except Err (State × Assignment) :=
  match getAssignmentById s asset_assignment_id with
  | none => .error .conflict
  | some assignment =>
    match getAsset s assignment.asset_id with
    | none => .error .notFound
    | some asset =>
      if has_role current_user "CheckInOutAsset" asset.labels then
        if asset.status = "In Use" then
          let s1 := updateAssetStatus s asset.id "Available"
          .ok (setAssignmentReturned s1 assignment.id now,
               { assignment with returned_at := some now })
        else .error .conflict
      else .error .forbidden

/-- Embedding of `approve_request` (`routes/requests.py:71-110`): 404 if the request is
missing, 409 when the request's status is not `Pending` (checked *before*
authorization), 403 on the label check against the request's asset; then the
asset becomes `Reserved` (no precondition on its current status) and the
request becomes `Approved` with `approved_by` the acting principal. -/
def approve_request (s : State) (current_user : User) (request_id : Nat) :
    Except Err (State × Request) :=
  match getRequest s request_id with
  | none => .error .notFound
  | some request =>
    if request.status = "Pending" then
      match getAsset s request.asset_id with
      | none => .error .notFound
      | some asset =>
        if has_role current_user "CheckInOutAsset" asset.labels then
          let s1 := updateAssetStatus s asset.id "Reserved"
          let s2 := updateRequestDecision s1 request.id "Approved" current_user.id
          .ok (s2, { request with status := "Approved", approved_by := some current_user.id })
        else .error .forbidden
    else .error .conflict

/-- Embedding of `reject_request` (`routes/requests.py:113-145`): 404 if the request is
missing, 409 when the request's status is not `Pending`, 403 on the label
check; then only the request is updated (`Rejected`, `approved_by` set) — the
asset is untouched. -/
def reject_request (s : State) (current_user : User) (request_id : Nat) :
    Except Err (State × Request) :=
  match getRequest s request_id with
  | none => .error .notFound
  | some request =>
    if request.status = "Pending" then
      match getAsset s request.asset_id with
      | none => .error .notFound
      | some asset =>
        if has_role current_user "CheckInOutAsset" asset.labels then
          let s1 := updateRequestDecision s request.id "Rejected" current_user.id
          .ok (s1, { request with status := "Rejected", approved_by := some current_user.id })
        else .error .forbidden
    else .error .conflict

/-- Embedding of `check_out_asset_for_maintenance` (`routes/maintenance.py:26-58`):
requires `Available`, sets `Maintenance`. -/
def check_out_asset_for_maintenance (s : State) (current_user : User)
    (asset_id : Nat) : Except Err (State × Asset) :=
  match getAsset s asset_id with
  | none => .error .notFound
  | some asset =>
    if has_role current_user "CheckInOutAsset" asset.labels then
      if asset.status = "Available" then
        .ok (updateAssetStatus s asset.id "Maintenance",
             { asset with status := "Maintenance" })
      else .error .conflict
    else .error .forbidden

/-- Embedding of `check_in_asset_from_maintenance` (`routes/maintenance.py:61-96`):
requires `Maintenance`, sets `Available` and `last_maintenance := now`. -/
def check_in_asset_from_maintenance (s : State) (current_user : User)
    (asset_id : Nat) (now : Int) : Except Err (State × Asset) :=
  match getAsset s asset_id with
  | none => .error .notFound
  | some asset =>
    if has_role current_user "CheckInOutAsset" asset.labels then
      if asset.status = "Maintenance" then
        .ok (updateAssetStatusMaint s asset.id "Available" now,
             { asset with status := "Available", last_maintenance := now })
      else .error .conflict
    else .error .forbidden

/-! ### Label creation (`routes/labels.py`) -/

/-- The label-table slice used by `create_label`: rows plus the autoincrement
primary-key counter. -/
structure LabelDB where
  labels : List LabelRow
  nextLabelId : Nat
deriving DecidableEq, Repr

/-- Embedding of `LabelRepository.get_by_name` (`repositories/label_repo.py:21-23`). -/
def LabelRepository.get_by_name (db : LabelDB) (name : String) :
    Option LabelRow :=
  db.labels.find? (fun l => l.name == name)

/-- The persistence part of `create_label` (`routes/labels.py:50-84`), after
its authorization gate: if a label with the requested name exists it is
returned unchanged, otherwise `repo.create({"name": name})` inserts one fresh
row. -/
def create_label (db : LabelDB) (name : String) : LabelDB × LabelRow :=
  match LabelRepository.get_by_name db name with
  | some label => (db, label)
  | none =>
    let label : LabelRow := { id := db.nextLabelId, name := name }
    ({ labels := db.labels ++ [label], nextLabelId := db.nextLabelId + 1 }, label)

/-! ### Reachability for the coherence invariant -/

/-- One application of a public lifecycle operation, by any principal with
any arguments (`routes/assignments.py`, `routes/requests.py`,
`routes/maintenance.py`). -/
inductive Step : State → State → Prop
  | checkOut (s s' : State) (u : User) (asset_id user_id days : Nat)
      (today : Int) (r : Assignment)
      (h : check_out_asset s u asset_id user_id days today = .ok (s', r)) :
      Step s s'
  | checkOutRequest (s s' : State) (u : User) (request_id days : Nat)
      (today : Int) (r : Assignment)
      (h : check_out_request s u request_id days today = .ok (s', r)) :
      Step s s'
  | checkInAsset (s s' : State) (u : User) (asset_id : Nat) (now : Int)
      (r : Assignment)
      (h : check_in_asset_by_asset_id s u asset_id now = .ok (s', r)) :
      Step s s'
  | checkInAssignment (s s' : State) (u : User) (assignment_id : Nat)
      (now : Int) (r : Assignment)
      (h : check_in_asset_by_assignment_id s u assignment_id now = .ok (s', r)) :
      Step s s'
  | maintOut (s s' : State) (u : User) (asset_id : Nat) (r : Asset)
      (h : check_out_asset_for_maintenance s u asset_id = .ok (s', r)) :
      Step s s'
  | maintIn (s s' : State) (u : User) (asset_id : Nat) (now : Int) (r : Asset)
      (h : check_in_asset_from_maintenance s u asset_id now = .ok (s', r)) :
      Step s s'
  | approve (s s' : State) (u : User) (request_id : Nat) (r : Request)
      (h : approve_request s u request_id = .ok (s', r)) :
      Step s s'
  | reject (s s' : State) (u : User) (request_id : Nat) (r : Request)
      (h : reject_request s u request_id = .ok (s', r)) :
      Step s s'

/-- A freshly provisioned database: no assignment rows yet, and consequently
no asset marked `In Use`.  Requests and assets are otherwise arbitrary. -/
def Init (s : State) : Prop :=
  s.assignments = [] ∧ ∀ a ∈ s.assets, a.status ≠ "In Use"

/-- States reachable from a fresh database through the public lifecycle
operations. -/
inductive Reachable : State → Prop
  | init (s : State) (h : Init s) : Reachable s
  | step (s s' : State) (hr : Reachable s) (hs : Step s s') : Reachable s'

/-- There is an assignment row for asset `asset_id` with `returned_at` null. -/
def ActiveAssignmentFor (s : State) (asset_id : Nat) : Prop :=
  ∃ g ∈ s.assignments, g.asset_id = asset_id ∧ g.returned_at = none

instance (s : State) (asset_id : Nat) : Decidable (ActiveAssignmentFor s asset_id) := by
  unfold ActiveAssignmentFor
  infer_instance

/-! ### Shared list lemmas -/

/-- If `find?` misses on the first list, `find?` on the concatenation is
`find?` on the second list. -/
theorem find?_append_of_none {α : Type} (l1 l2 : List α) (p : α → Bool)
    (h : l1.find? p = none) : (l1 ++ l2).find? p = l2.find? p := by
  induction l1 with
  | nil => rfl
  | cons a t ih =>
    rw [List.find?] at h
    cases hp : p a with
    | true => rw [hp] at h; exact absurd h (by simp)
    | false =>
      rw [hp] at h
      simpa [List.find?_cons, hp] using ih h

/-! ### C1 / C2: the core decision rule -/

/-- C1.  Core authorization decision rule: `has_role(P, R, L)` is true iff the
wildcard `*` is among the scopes P holds for R, or every label name in L is
contained in that scope set; and for non-empty L with no wildcard held it is
false exactly when some label of L lies outside the scope set. -/
theorem has_role_iff (u : User) (r : String) (L : List String) :
    (has_role u r L = true ↔
      "*" ∈ scopesFor u r ∨ ∀ l ∈ L, l ∈ scopesFor u r) ∧
    (L ≠ [] → "*" ∉ scopesFor u r →
      (has_role u r L = false ↔ ∃ l ∈ L, l ∉ scopesFor u r)) := by
  have hmain : has_role u r L = true ↔
      "*" ∈ scopesFor u r ∨ ∀ l ∈ L, l ∈ scopesFor u r := by
    simp [has_role]
  refine ⟨hmain, fun _ hw => ?_⟩
  rw [← Bool.not_eq_true, hmain]
  push_neg
  simp [hw]

/-- Concrete instance of `has_role_iff`: scenario seed 1 of the spec — one
grant (`ReadAsset`, `department:HR`), target labels
`{department:HR, location:Lon}`. -/
def c1User : User := ⟨1, [⟨"ReadAsset", "department:HR"⟩]⟩

theorem has_role_iff_witness :
    has_role c1User "ReadAsset" ["department:HR", "location:Lon"] = false ↔
      ∃ l ∈ ["department:HR", "location:Lon"], l ∉ scopesFor c1User "ReadAsset" :=
  (has_role_iff c1User "ReadAsset" ["department:HR", "location:Lon"]).2
    (by decide) (by decide)

/-- A user holding no role grants at all. -/
def c2User : User := ⟨7, []⟩

/-- C2 counterexample.  The claim requires `has_role(P, R, ∅)` to be *not*
permitted when P holds zero grants for R; but the code's
`all(label in scopes for label in labels)` is vacuously true on an empty
label collection, so `has_role` returns `True` even with an empty scope
set. -/
theorem has_role_empty_zero_grants_counterexample :
    has_role c2User "ReadAsset" [] = true ∧ scopesFor c2User "ReadAsset" = [] :=
  ⟨rfl, rfl⟩

/-- C2 amended.  `has_role(P, R, ∅)` is true for *every* user and role —
including principals with zero grants for R — because the universal
quantification over an empty label collection is vacuously true. -/
theorem has_role_empty_labels (u : User) (r : String) :
    has_role u r [] = true := by
  simp [has_role]

/-! ### C3 / C6: collection visibility -/

/-- C3.  Collection-visibility: with no wildcard grant and a successful (not
forbidden) listing, a non-deleted asset is listed iff every label attached to
it (through the mapping table) is among the label ids resolved from the
caller's `ReadAsset` scopes, and an asset with no labels at all is listed —
the SQL predicate is the negated existential
`¬∃ mapping of E outside the scopes`. -/
theorem asset_listing_visibility (db : DB) (uid : Nat) (items : List Asset)
    (hlist : get_assets db uid = .ok items)
    (hnw : RoleRepository.has_scope_all db uid "ReadAsset" = false) :
    ∀ a ∈ db.assets, a.is_deleted = false →
      (a ∈ items ↔
        ∀ m ∈ db.assetLabels, m.item_id = a.id →
          m.label_id ∈ get_labels_by_roles db
            ((RoleRepository.get_roles db uid "ReadAsset").map RoleRow.scope)) ∧
      ((∀ m ∈ db.assetLabels, m.item_id ≠ a.id) → a ∈ items) := by
  intro a ha hdel
  unfold get_assets at hlist
  rw [hnw] at hlist
  simp only [Bool.false_eq_true, if_false] at hlist
  split at hlist
  · exact absurd hlist (by simp)
  · simp only [ListingResult.ok.injEq] at hlist
    subst hlist
    have hmem : a ∈ get_all_assets db
        (some (get_assets_by_labels
          (get_labels_by_roles db
            ((RoleRepository.get_roles db uid "ReadAsset").map RoleRow.scope))
          db.assetLabels)) ↔
        ∀ m ∈ db.assetLabels, m.item_id = a.id →
          m.label_id ∈ get_labels_by_roles db
            ((RoleRepository.get_roles db uid "ReadAsset").map RoleRow.scope) := by
      simp [get_all_assets, List.mem_filter, ha, hdel, get_assets_by_labels]
    refine ⟨hmem, fun hnone => hmem.2 ?_⟩
    intro m hm him
    exact absurd him (hnone m hm)

/-- Concrete database for the C3 witness: the caller (user 1) holds
(`ReadAsset`, `department:HR`); asset 1 is unlabelled, asset 2 carries label
10 = `department:HR`. -/
def c3db : DB :=
  { assets := [⟨1, "Available", [], 0, 30, false⟩,
               ⟨2, "Available", ["department:HR"], 0, 30, false⟩]
    labelRows := [⟨10, "department:HR"⟩]
    assetLabels := [⟨2, 10⟩]
    roleRows := [⟨1, "ReadAsset", "department:HR"⟩] }

/-- The unlabelled asset of `c3db`. -/
def c3asset : Asset := ⟨1, "Available", [], 0, 30, false⟩

theorem asset_listing_visibility_witness :
    (c3asset ∈ [c3asset, ⟨2, "Available", ["department:HR"], 0, 30, false⟩] ↔
      ∀ m ∈ c3db.assetLabels, m.item_id = c3asset.id →
        m.label_id ∈ get_labels_by_roles c3db
          ((RoleRepository.get_roles c3db 1 "ReadAsset").map RoleRow.scope)) ∧
    ((∀ m ∈ c3db.assetLabels, m.item_id ≠ c3asset.id) →
      c3asset ∈ [c3asset, ⟨2, "Available", ["department:HR"], 0, 30, false⟩]) :=
  asset_listing_visibility c3db 1
    [c3asset, ⟨2, "Available", ["department:HR"], 0, 30, false⟩]
    (by decide) (by decide) c3asset (by decide) (by decide)

/-- C6.  Listing requires at least one scope: a principal with no role rows at
all for `ReadAsset` (hence no wildcard and an empty scope set) receives 403
from the asset listing and from the due-for-maintenance listing, rather than
an empty filtered list. -/
theorem zero_scopes_listing_forbidden (db : DB) (uid : Nat) (now : Int)
    (h : RoleRepository.get_roles db uid "ReadAsset" = []) :
    get_assets db uid = .forbidden ∧
      assets_due_for_maintenance db uid now = .forbidden := by
  have hnw : RoleRepository.has_scope_all db uid "ReadAsset" = false := by
    unfold RoleRepository.has_scope_all
    cases hf : RoleRepository.get_role db uid "ReadAsset" "*" with
    | none => rfl
    | some row =>
      exfalso
      unfold RoleRepository.get_role at hf
      have hrow := List.mem_of_find?_eq_some hf
      have hpred := List.find?_some hf
      simp only [Bool.and_eq_true, beq_iff_eq] at hpred
      have : row ∈ RoleRepository.get_roles db uid "ReadAsset" := by
        unfold RoleRepository.get_roles
        rw [List.mem_filter]
        exact ⟨hrow, by simp [hpred.1.1, hpred.2]⟩
      rw [h] at this
      exact absurd this (List.not_mem_nil row)
  constructor
  · unfold get_assets
    rw [hnw, h]
    simp
  · unfold assets_due_for_maintenance
    rw [hnw, h]
    simp

/-- Concrete instance for C6: a database whose single role row belongs to a
different user. -/
def c6db : DB :=
  { assets := [⟨1, "Available", [], 0, 30, false⟩]
    labelRows := []
    assetLabels := []
    roleRows := [⟨2, "ReadAsset", "*"⟩] }

theorem zero_scopes_listing_forbidden_witness :
    get_assets c6db 1 = .forbidden ∧
      assets_due_for_maintenance c6db 1 0 = .forbidden :=
  zero_scopes_listing_forbidden c6db 1 0 (by decide)

/-! ### C8: maintenance-due query -/

/-- C8.  The due-for-maintenance query returns exactly the candidate assets
(the visibility-filtered `get_all` result) whose
`last_maintenance + maintenance_rate` days lie strictly before `now`; an
asset exactly at the boundary is not due. -/
theorem due_for_maintenance_spec (db : DB) (sq : Option (Nat → Bool))
    (now : Int) :
    (∀ a, a ∈ get_due_for_maintenance db sq now ↔
      a ∈ get_all_assets db sq ∧
        a.last_maintenance + (a.maintenance_rate : Int) * 86400 < now) ∧
    (∀ a ∈ get_all_assets db sq,
      now = a.last_maintenance + (a.maintenance_rate : Int) * 86400 →
      a ∉ get_due_for_maintenance db sq now) := by
  constructor
  · intro a
    simp [get_due_for_maintenance, List.mem_filter]
  · intro a _ heq hmem
    rw [get_due_for_maintenance, List.mem_filter] at hmem
    have := of_decide_eq_true hmem.2
    omega

/-- Concrete instance for C8: scenario seed 6 of the spec —
`last_maintenance = now - 40 days` with `maintenance_rate = 30` is due,
and an asset exactly at its 30-day boundary is not due. -/
def c8db : DB :=
  { assets := [⟨1, "Available", [], 0, 30, false⟩]
    labelRows := []
    assetLabels := []
    roleRows := [] }

theorem due_for_maintenance_spec_witness :
    (⟨1, "Available", [], 0, 30, false⟩ : Asset) ∉
      get_due_for_maintenance c8db none (30 * 86400) :=
  (due_for_maintenance_spec c8db none (30 * 86400)).2
    ⟨1, "Available", [], 0, 30, false⟩ (by decide) (by decide)

/-! ### C9: label creation is idempotent by name -/

/-- C9.  Creating a label whose name already exists returns the existing row
and leaves the table untouched; creating a fresh name appends exactly one row
with that name; consequently a second create with the same name returns
exactly what the first one produced. -/
theorem create_label_idempotent (db : LabelDB) (name : String) :
    (∀ l, LabelRepository.get_by_name db name = some l →
      create_label db name = (db, l)) ∧
    (LabelRepository.get_by_name db name = none →
      (create_label db name).1.labels = db.labels ++ [(create_label db name).2] ∧
      (create_label db name).2.name = name) ∧
    create_label (create_label db name).1 name
      = ((create_label db name).1, (create_label db name).2) := by
  refine ⟨fun l hl => by simp [create_label, hl], ?_, ?_⟩
  · intro hnone
    simp [create_label, hnone]
  · cases hfind : LabelRepository.get_by_name db name with
    | some l => simp [create_label, hfind]
    | none =>
      have hfind0 : List.find? (fun l => l.name == name) db.labels = none := hfind
      have happ : List.find? (fun l => l.name == name)
          (db.labels ++ [⟨db.nextLabelId, name⟩])
          = some ⟨db.nextLabelId, name⟩ := by
        rw [find?_append_of_none _ _ _ hfind0]
        simp
      simp [create_label, LabelRepository.get_by_name, hfind0, happ]

/-- Concrete instance for C9: creating `department:HR` twice starting from an
empty label table. -/
def c9db : LabelDB := ⟨[], 1⟩

theorem create_label_idempotent_witness :
    ((create_label c9db "department:HR").1.labels
        = c9db.labels ++ [(create_label c9db "department:HR").2] ∧
      (create_label c9db "department:HR").2.name = "department:HR") ∧
    create_label (create_label c9db "department:HR").1 "department:HR"
      = ((create_label c9db "department:HR").1,
         (create_label c9db "department:HR").2) :=
  ⟨(create_label_idempotent c9db "department:HR").2.1 (by decide),
   (create_label_idempotent c9db "department:HR").2.2⟩

/-! ### Shared lemmas about id-keyed row updates -/

/-- Generic `find?` after an id-keyed functional update keyed by the same
predicate: updating the rows satisfying `p` with a `p`-preserving `g`
transports the `find?` result through `g`. -/
theorem find?_update {α : Type} (p : α → Bool) (g : α → α)
    (hg : ∀ a, p a = true → p (g a) = true) (l : List α) :
    (l.map (fun a => if p a then g a else a)).find? p = (l.find? p).map g := by
  induction l with
  | nil => rfl
  | cons a t ih =>
    cases hp : p a with
    | true => simp [List.find?_cons, hp, hg a hp]
    | false => simp [List.find?_cons, hp, ih]

theorem getAsset_updateAssetStatus (s : State) (aid : Nat) (st : String) :
    getAsset (updateAssetStatus s aid st) aid
      = (getAsset s aid).map (fun a => { a with status := st }) := by
  unfold getAsset updateAssetStatus
  exact find?_update (fun a => a.id == aid) (fun a => { a with status := st })
    (fun _ ha => ha) s.assets

theorem getRequest_updateRequestStatus (s : State) (rid : Nat) (st : String) :
    getRequest (updateRequestStatus s rid st) rid
      = (getRequest s rid).map (fun r => { r with status := st }) := by
  unfold getRequest updateRequestStatus
  exact find?_update (fun r => r.id == rid) (fun r => { r with status := st })
    (fun _ hr => hr) s.requests

theorem getRequest_updateRequestDecision (s : State) (rid : Nat) (st : String)
    (uid : Nat) :
    getRequest (updateRequestDecision s rid st uid) rid
      = (getRequest s rid).map
          (fun r => { r with status := st, approved_by := some uid }) := by
  unfold getRequest updateRequestDecision
  exact find?_update (fun r => r.id == rid)
    (fun r => { r with status := st, approved_by := some uid })
    (fun _ hr => hr) s.requests

theorem getAssignmentById_setAssignmentReturned (s : State) (i : Nat)
    (t : Int) :
    getAssignmentById (setAssignmentReturned s i t) i
      = (getAssignmentById s i).map (fun a => { a with returned_at := some t }) := by
  unfold getAssignmentById setAssignmentReturned
  exact find?_update (fun a => a.id == i) (fun a => { a with returned_at := some t })
    (fun _ ha => ha) s.assignments

/-- Decidable equality for `Except` results, used to evaluate the route
handlers on concrete inputs. -/
instance {e a : Type} [DecidableEq e] [DecidableEq a] : DecidableEq (Except e a) := fun x y =>
  match x, y with
  | .error v, .error w => if h : v = w then .isTrue (by rw [h]) else .isFalse (by simp [h])
  | .ok v, .ok w => if h : v = w then .isTrue (by rw [h]) else .isFalse (by simp [h])
  | .error _, .ok _ => .isFalse (by simp)
  | .ok _, .error _ => .isFalse (by simp)

/-! ### C10: check-in by assignment id ignores `returned_at` -/

/-- C10.  Check-in by assignment id never reads the assignment's current
`returned_at`: for any resolvable assignment (historical or active) whose
asset passes the label check, the operation conflicts exactly when the
asset's status is not `In Use`, and otherwise succeeds, setting the asset to
`Available` and overwriting the assignment's `returned_at` with now. -/
theorem check_in_by_assignment_spec (s : State) (u : User) (aid : Nat)
    (asg : Assignment) (asset : Asset) (now : Int)
    (hfind : getAssignmentById s aid = some asg)
    (hasset : getAsset s asg.asset_id = some asset)
    (hauth : has_role u "CheckInOutAsset" asset.labels = true) :
    (asset.status ≠ "In Use" →
      check_in_asset_by_assignment_id s u aid now = .error .conflict) ∧
    (asset.status = "In Use" → ∃ s',
      check_in_asset_by_assignment_id s u aid now
        = .ok (s', { asg with returned_at := some now }) ∧
      getAsset s' asg.asset_id = some { asset with status := "Available" } ∧
      getAssignmentById s' aid = some { asg with returned_at := some now }) := by
  have hid : asg.id = aid := by
    have := List.find?_some hfind
    simpa using this
  have haid : asset.id = asg.asset_id := by
    have := List.find?_some hasset
    simpa using this
  unfold check_in_asset_by_assignment_id
  rw [hfind]
  simp only
  rw [hasset]
  simp only
  rw [if_pos hauth]
  constructor
  · intro hne
    rw [if_neg hne]
  · intro hst
    refine ⟨setAssignmentReturned (updateAssetStatus s asset.id "Available")
      asg.id now, ?_, ?_, ?_⟩
    · rw [if_pos hst]
    · have h1 : getAsset (setAssignmentReturned
          (updateAssetStatus s asset.id "Available") asg.id now) asg.asset_id
          = getAsset (updateAssetStatus s asset.id "Available") asg.asset_id := rfl
      rw [h1, haid, getAsset_updateAssetStatus, hasset]
      simp [haid]
    · have h2 : getAssignmentById (setAssignmentReturned
          (updateAssetStatus s asset.id "Available") asg.id now) aid
          = getAssignmentById
              (setAssignmentReturned s asg.id now) aid := rfl
      rw [h2, ← hid, getAssignmentById_setAssignmentReturned, hid, hfind]
      simp [hid]

/-- Concrete instance for C10: assignment 1 is historical
(`returned_at = some 5`) while its asset is `In Use` (a state actually
reachable, cf. the C5 counterexample); the check-in still succeeds and
rewrites `returned_at`. -/
def c10state : State :=
  { assets := [⟨1, "In Use", [], 0, 30, false⟩]
    requests := []
    assignments := [⟨1, 1, 2, 3, 10, some 5, none⟩,
                    ⟨2, 1, 2, 3, 10, none, none⟩]
    nextAssignmentId := 3 }

/-- The acting principal for the C10 witness. -/
def c10user : User := ⟨3, [⟨"CheckInOutAsset", "*"⟩]⟩

theorem check_in_by_assignment_spec_witness :
    ∃ s', check_in_asset_by_assignment_id c10state c10user 1 99
        = .ok (s', { id := 1, asset_id := 1, user_id := 2, assigned_by_id := 3,
                     due_date := 10, returned_at := some 99, request_id := none }) ∧
      getAsset s' 1 = some ⟨1, "Available", [], 0, 30, false⟩ ∧
      getAssignmentById s' 1
        = some { id := 1, asset_id := 1, user_id := 2, assigned_by_id := 3,
                 due_date := 10, returned_at := some 99, request_id := none } :=
  (check_in_by_assignment_spec c10state c10user 1
    ⟨1, 1, 2, 3, 10, some 5, none⟩ ⟨1, "In Use", [], 0, 30, false⟩ 99
    (by decide) (by decide) (by decide)).2 rfl

/-! ### C4: check-out via request never checks the request's status -/

/-- A reachable-looking state with a `Reserved` asset whose request is still
`Pending`. -/
def c4state : State :=
  { assets := [⟨1, "Reserved", [], 0, 30, false⟩]
    requests := [⟨1, 1, 2, "Pending", none⟩]
    assignments := []
    nextAssignmentId := 1 }

/-- The acting principal for the C4 counterexample. -/
def c4user : User := ⟨5, [⟨"CheckInOutAsset", "*"⟩]⟩

/-- C4 counterexample.  The claim requires check-out-via-request to succeed
only when the request's status is `Approved`; but `check_out_request` never
inspects `request.status` (it only tests the asset's status), so a `Pending`
request on a `Reserved` asset is checked out successfully — as the
repository's own test
`test_check_in_out_assets_special` (`tests/routes/test_assignments.py`)
exercises. -/
theorem check_out_request_pending_counterexample :
    (getRequest c4state 1).map Request.status = some "Pending" ∧
    check_out_request c4state c4user 1 7 0
      = .ok (⟨[⟨1, "In Use", [], 0, 30, false⟩],
              [⟨1, 1, 2, "Fulfilled", none⟩],
              [⟨1, 1, 2, 5, 7, none, some 1⟩], 2⟩,
             ⟨1, 1, 2, 5, 7, none, some 1⟩) := by
  constructor
  · rfl
  · decide

/-- C4 amended.  Check-out via request, for a resolvable request and a
label-authorized principal, conflicts exactly when the referenced asset's
status is not `Reserved` — the request's own status is never checked — and on
success the asset becomes `In Use`, the request becomes `Fulfilled`, and an
active assignment linked to the request (for the request's user) is
created. -/
theorem check_out_request_spec (s : State) (u : User) (rid days : Nat)
    (today : Int) (req : Request) (asset : Asset)
    (hreq : getRequest s rid = some req)
    (hasset : getAsset s req.asset_id = some asset)
    (hauth : has_role u "CheckInOutAsset" asset.labels = true) :
    (asset.status ≠ "Reserved" →
      check_out_request s u rid days today = .error .conflict) ∧
    (asset.status = "Reserved" → ∃ s' a,
      check_out_request s u rid days today = .ok (s', a) ∧
      getAsset s' req.asset_id = some { asset with status := "In Use" } ∧
      getRequest s' rid = some { req with status := "Fulfilled" } ∧
      a ∈ s'.assignments ∧ a.request_id = some req.id ∧
      a.returned_at = none ∧ a.user_id = req.user_id ∧
      a.assigned_by_id = u.id) := by
  have hrid : req.id = rid := by
    have := List.find?_some hreq
    simpa using this
  have haid : asset.id = req.asset_id := by
    have := List.find?_some hasset
    simpa using this
  unfold check_out_request
  rw [hreq]
  simp only
  rw [hasset]
  simp only
  rw [if_pos hauth]
  constructor
  · intro hne
    rw [if_neg hne]
  · intro hst
    refine ⟨{ assets :=
                (updateRequestStatus (updateAssetStatus s asset.id "In Use")
                  req.id "Fulfilled").assets,
              requests :=
                (updateRequestStatus (updateAssetStatus s asset.id "In Use")
                  req.id "Fulfilled").requests,
              assignments :=
                (updateRequestStatus (updateAssetStatus s asset.id "In Use")
                  req.id "Fulfilled").assignments ++
                  [{ id := s.nextAssignmentId, asset_id := asset.id,
                     user_id := req.user_id, assigned_by_id := u.id,
                     due_date := today + (days : Int), returned_at := none,
                     request_id := some req.id }],
              nextAssignmentId := s.nextAssignmentId + 1 },
            { id := s.nextAssignmentId, asset_id := asset.id,
              user_id := req.user_id, assigned_by_id := u.id,
              due_date := today + (days : Int), returned_at := none,
              request_id := some req.id },
            ?_, ?_, ?_, ?_, rfl, rfl, rfl, rfl⟩
    · rw [if_pos hst]
      rfl
    · show getAsset (updateRequestStatus (updateAssetStatus s asset.id "In Use")
          req.id "Fulfilled") req.asset_id = _
      have h1 : getAsset (updateRequestStatus
          (updateAssetStatus s asset.id "In Use") req.id "Fulfilled") req.asset_id
          = getAsset (updateAssetStatus s asset.id "In Use") req.asset_id := rfl
      rw [h1, ← haid, getAsset_updateAssetStatus, haid, hasset]
      simp [haid]
    · show getRequest (updateRequestStatus (updateAssetStatus s asset.id "In Use")
          req.id "Fulfilled") rid = _
      have h2 : getRequest (updateRequestStatus
          (updateAssetStatus s asset.id "In Use") req.id "Fulfilled") rid
          = getRequest (updateRequestStatus s req.id "Fulfilled") rid := rfl
      rw [h2, hrid, getRequest_updateRequestStatus, hreq]
      simp [hrid]
    · exact List.mem_append_right _ (List.mem_singleton_self _)

/-- Concrete instance for the amended C4 theorem, at the same state as the
counterexample. -/
theorem check_out_request_spec_witness :
    ∃ s' a, check_out_request c4state c4user 1 7 0 = .ok (s', a) ∧
      getAsset s' 1 = some ⟨1, "In Use", [], 0, 30, false⟩ ∧
      getRequest s' 1 = some ⟨1, 1, 2, "Fulfilled", none⟩ ∧
      a ∈ s'.assignments ∧ a.request_id = some 1 ∧
      a.returned_at = none ∧ a.user_id = 2 ∧ a.assigned_by_id = 5 :=
  (check_out_request_spec c4state c4user 1 7 0
    ⟨1, 1, 2, "Pending", none⟩ ⟨1, "Reserved", [], 0, 30, false⟩
    (by decide) (by decide) (by decide)).2 rfl

/-! ### C7: request terminal-once -/

/-- C7.  A request whose status is not `Pending` can be neither approved nor
rejected — both handlers return Conflict before any mutation or authorization
check, leaving request and asset untouched; approving a `Pending` request (as
an authorized principal) sets the asset to `Reserved` and the request to
`Approved` with `approved_by` the acting principal, after which a further
approve or reject of the same request, by any principal, returns Conflict. -/
theorem approve_reject_terminal_once (s : State) (u u' : User) (rid : Nat)
    (req : Request) (hreq : getRequest s rid = some req) :
    (req.status ≠ "Pending" →
      approve_request s u rid = .error .conflict ∧
      reject_request s u rid = .error .conflict) ∧
    (∀ asset, req.status = "Pending" →
      getAsset s req.asset_id = some asset →
      has_role u "CheckInOutAsset" asset.labels = true →
      ∃ s', approve_request s u rid
          = .ok (s', { req with status := "Approved", approved_by := some u.id }) ∧
        getAsset s' req.asset_id = some { asset with status := "Reserved" } ∧
        getRequest s' rid
          = some { req with status := "Approved", approved_by := some u.id } ∧
        approve_request s' u' rid = .error .conflict ∧
        reject_request s' u' rid = .error .conflict) := by
  have hrid : req.id = rid := by
    have := List.find?_some hreq
    simpa using this
  constructor
  · intro hne
    constructor
    · unfold approve_request
      rw [hreq]
      simp only
      rw [if_neg hne]
    · unfold reject_request
      rw [hreq]
      simp only
      rw [if_neg hne]
  · intro asset hpend hasset hauth
    have haid : asset.id = req.asset_id := by
      have := List.find?_some hasset
      simpa using this
    have hasset' : getAsset (updateRequestDecision
        (updateAssetStatus s asset.id "Reserved") req.id "Approved" u.id)
        req.asset_id = some { asset with status := "Reserved" } := by
      have h1 : getAsset (updateRequestDecision
          (updateAssetStatus s asset.id "Reserved") req.id "Approved" u.id)
          req.asset_id
          = getAsset (updateAssetStatus s asset.id "Reserved") req.asset_id := rfl
      rw [h1, ← haid, getAsset_updateAssetStatus, haid, hasset]
      simp [haid]
    have hreq' : getRequest (updateRequestDecision
        (updateAssetStatus s asset.id "Reserved") req.id "Approved" u.id) rid
        = some { req with status := "Approved", approved_by := some u.id } := by
      have h2 : getRequest (updateRequestDecision
          (updateAssetStatus s asset.id "Reserved") req.id "Approved" u.id) rid
          = getRequest (updateRequestDecision s req.id "Approved" u.id) rid := rfl
      rw [h2, hrid, getRequest_updateRequestDecision, hreq]
      simp [hrid]
    refine ⟨updateRequestDecision (updateAssetStatus s asset.id "Reserved")
      req.id "Approved" u.id, ?_, hasset', hreq', ?_, ?_⟩
    · unfold approve_request
      rw [hreq]
      simp only
      rw [if_pos hpend, hasset]
      simp only
      rw [if_pos hauth]
    · unfold approve_request
      rw [hreq']
      simp only
      rw [if_neg (by decide)]
    · unfold reject_request
      rw [hreq']
      simp only
      rw [if_neg (by decide)]

/-- Concrete instance for C7: scenario seed 4 of the spec — approve a pending
request, then observe both terminal operations conflict. -/
def c7state : State :=
  { assets := [⟨1, "Available", [], 0, 30, false⟩]
    requests := [⟨1, 1, 2, "Pending", none⟩]
    assignments := []
    nextAssignmentId := 1 }

/-- The acting principal for the C7 witness. -/
def c7user : User := ⟨9, [⟨"CheckInOutAsset", "*"⟩]⟩

theorem approve_reject_terminal_once_witness :
    ∃ s', approve_request c7state c7user 1
        = .ok (s', ⟨1, 1, 2, "Approved", some 9⟩) ∧
      getAsset s' 1 = some ⟨1, "Reserved", [], 0, 30, false⟩ ∧
      getRequest s' 1 = some ⟨1, 1, 2, "Approved", some 9⟩ ∧
      approve_request s' c7user 1 = .error .conflict ∧
      reject_request s' c7user 1 = .error .conflict :=
  (approve_reject_terminal_once c7state c7user c7user 1
    ⟨1, 1, 2, "Pending", none⟩ (by decide)).2
    ⟨1, "Available", [], 0, 30, false⟩ rfl (by decide) (by decide)

/-! ### C5: status/assignment coherence over reachable states -/

/-- The forward direction of the spec's coherence invariant: every `In Use`
asset has an active assignment. -/
def Coherent (s : State) : Prop :=
  ∀ a ∈ s.assets, a.status = "In Use" → ActiveAssignmentFor s a.id

/-- The inductive invariant: coherence plus well-formedness of the
autoincrement assignment ids (distinct and below the counter). -/
def Inv (s : State) : Prop :=
  Coherent s ∧ (s.assignments.map Assignment.id).Nodup ∧
    ∀ g ∈ s.assignments, g.id < s.nextAssignmentId

/-- Coherence survives an asset-status map that does not introduce `In Use`
and leaves ids and assignments alone. -/
theorem coherent_status_change (s t : State) (f : Asset → Asset)
    (hassets : t.assets = s.assets.map f)
    (hid : ∀ b, (f b).id = b.id)
    (hstat : ∀ b, (f b).status = "In Use" → b.status = "In Use")
    (hassign : t.assignments = s.assignments)
    (h : Coherent s) : Coherent t := by
  intro x hx hst
  rw [hassets] at hx
  obtain ⟨b, hb, hfb⟩ := List.mem_map.1 hx
  have hbst : b.status = "In Use" := hstat b (by rw [hfb, hst])
  obtain ⟨g, hg, hga, hgr⟩ := h b hb hbst
  exact ⟨g, by rw [hassign]; exact hg, by rw [← hfb, hid, hga], hgr⟩

/-- Coherence survives a check-out: the target asset becomes `In Use` and
gains a fresh active assignment; other assets keep theirs. -/
theorem coherent_check_out (s t : State) (targetAid : Nat) (newA : Assignment)
    (hassets : t.assets = s.assets.map
      (fun b => if b.id == targetAid then { b with status := "In Use" } else b))
    (hassign : t.assignments = s.assignments ++ [newA])
    (hnewa : newA.asset_id = targetAid) (hnewr : newA.returned_at = none)
    (h : Coherent s) : Coherent t := by
  intro x hx hst
  rw [hassets] at hx
  obtain ⟨b, hb, hfb⟩ := List.mem_map.1 hx
  by_cases hc : b.id = targetAid
  · refine ⟨newA, by rw [hassign]; exact List.mem_append_right _ (List.mem_singleton_self _), ?_, hnewr⟩
    rw [hnewa, ← hfb]
    simp [hc]
  · have hxb : x = b := by rw [← hfb]; simp [hc]
    obtain ⟨g, hg, hga, hgr⟩ := h b hb (by rw [← hxb]; exact hst)
    exact ⟨g, by rw [hassign]; exact List.mem_append_left _ hg,
           by rw [hxb]; exact hga, hgr⟩

/-- Coherence survives a check-in: the target asset leaves `In Use`, and by
id-uniqueness of assignment rows the returned assignment belonged to the
target asset, so every other `In Use` asset keeps its active assignment. -/
theorem coherent_check_in (s : State) (targetAid asgId : Nat) (now : Int)
    (hnodup : (s.assignments.map Assignment.id).Nodup)
    (hex : ∃ asg ∈ s.assignments, asg.id = asgId ∧ asg.asset_id = targetAid)
    (h : Coherent s) :
    Coherent (setAssignmentReturned (updateAssetStatus s targetAid "Available")
      asgId now) := by
  obtain ⟨asg, hasg, hasgid, hasgaid⟩ := hex
  intro x hx hst
  obtain ⟨b, hb, hfb⟩ := List.mem_map.1 hx
  by_cases hc : b.id = targetAid
  · exfalso
    rw [← hfb] at hst
    simp [hc] at hst
  · have hxb : x = b := by rw [← hfb]; simp [hc]
    obtain ⟨g, hg, hga, hgr⟩ := h b hb (by rw [← hxb]; exact hst)
    have hgid : g.id ≠ asgId := by
      intro heq
      have hgasg : g = asg :=
        List.inj_on_of_nodup_map hnodup hg hasg (by rw [heq, hasgid])
      rw [hgasg] at hga
      exact hc (by rw [← hga, hasgaid])
    refine ⟨g, ?_, by rw [hxb]; exact hga, hgr⟩
    exact List.mem_map.2 ⟨g, hg, by simp [hgid]⟩

/-- Appending a fresh assignment with id equal to the counter keeps the ids
distinct and below the incremented counter. -/
theorem nodup_bound_concat (l : List Assignment) (n : Nat) (newA : Assignment)
    (hn : (l.map Assignment.id).Nodup) (hb : ∀ g ∈ l, g.id < n)
    (hnew : newA.id = n) :
    ((l ++ [newA]).map Assignment.id).Nodup ∧
      ∀ g ∈ l ++ [newA], g.id < n + 1 := by
  constructor
  · rw [List.map_append, List.nodup_append]
    refine ⟨hn, List.nodup_singleton _, ?_⟩
    intro x hx hx'
    simp only [List.map_cons, List.map_nil, List.mem_singleton] at hx'
    obtain ⟨g, hg, hgid⟩ := List.mem_map.1 hx
    have := hb g hg
    omega
  · intro g hg
    rcases List.mem_append.1 hg with hg | hg
    · have := hb g hg
      omega
    · rw [List.mem_singleton] at hg
      subst hg
      omega

/-- Setting `returned_at` on one row keeps assignment ids unchanged. -/
theorem nodup_bound_map_return (l : List Assignment) (i : Nat) (t : Int)
    (n : Nat) (hn : (l.map Assignment.id).Nodup) (hb : ∀ g ∈ l, g.id < n) :
    (((l.map (fun a => if a.id == i then { a with returned_at := some t } else a)).map
        Assignment.id).Nodup) ∧
      ∀ g ∈ l.map (fun a => if a.id == i then { a with returned_at := some t } else a),
        g.id < n := by
  have hmapid : (l.map
      (fun a => if a.id == i then { a with returned_at := some t } else a)).map
      Assignment.id = l.map Assignment.id := by
    rw [List.map_map]
    refine List.map_congr_left ?_
    intro a _
    by_cases hc : a.id = i
    · simp [hc]
    · simp [hc]
  constructor
  · rw [hmapid]
    exact hn
  · intro g hg
    obtain ⟨a, ha, hfa⟩ := List.mem_map.1 hg
    have hb' := hb a ha
    by_cases hc : a.id = i
    · rw [← hfa, if_pos (by simp [hc])]
      exact hb'
    · rw [← hfa, if_neg (by simp [hc])]
      exact hb'

theorem check_out_asset_inv (s s' : State) (u : User) (aid uid days : Nat)
    (today : Int) (r : Assignment)
    (h : check_out_asset s u aid uid days today = .ok (s', r))
    (hinv : Inv s) : Inv s' := by
  unfold check_out_asset at h
  cases hA : getAsset s aid with
  | none => rw [hA] at h; exact absurd h (by simp)
  | some asset =>
    rw [hA] at h
    simp only at h
    by_cases hrole : has_role u "CheckInOutAsset" asset.labels = true
    · rw [if_pos hrole] at h
      by_cases hst : asset.status = "Available"
      · rw [if_pos hst] at h
        simp only [Except.ok.injEq, Prod.mk.injEq] at h
        obtain ⟨hs', _⟩ := h
        rw [← hs']
        refine ⟨?_, ?_, ?_⟩
        · exact coherent_check_out s _ asset.id
            ⟨s.nextAssignmentId, asset.id, uid, u.id, today + (days : Int), none, none⟩
            rfl rfl rfl rfl hinv.1
        · exact (nodup_bound_concat s.assignments s.nextAssignmentId _
            hinv.2.1 hinv.2.2 rfl).1
        · exact (nodup_bound_concat s.assignments s.nextAssignmentId _
            hinv.2.1 hinv.2.2 rfl).2
      · rw [if_neg hst] at h; exact absurd h (by simp)
    · rw [if_neg hrole] at h; exact absurd h (by simp)

theorem check_out_request_inv (s s' : State) (u : User) (rid days : Nat)
    (today : Int) (r : Assignment)
    (h : check_out_request s u rid days today = .ok (s', r))
    (hinv : Inv s) : Inv s' := by
  unfold check_out_request at h
  cases hR : getRequest s rid with
  | none => rw [hR] at h; exact absurd h (by simp)
  | some req =>
    rw [hR] at h
    simp only at h
    cases hA : getAsset s req.asset_id with
    | none => rw [hA] at h; exact absurd h (by simp)
    | some asset =>
      rw [hA] at h
      simp only at h
      by_cases hrole : has_role u "CheckInOutAsset" asset.labels = true
      · rw [if_pos hrole] at h
        by_cases hst : asset.status = "Reserved"
        · rw [if_pos hst] at h
          simp only [Except.ok.injEq, Prod.mk.injEq] at h
          obtain ⟨hs', _⟩ := h
          rw [← hs']
          refine ⟨?_, ?_, ?_⟩
          · exact coherent_check_out s _ asset.id
              ⟨s.nextAssignmentId, asset.id, req.user_id, u.id,
               today + (days : Int), none, some req.id⟩
              rfl rfl rfl rfl hinv.1
          · exact (nodup_bound_concat s.assignments s.nextAssignmentId _
              hinv.2.1 hinv.2.2 rfl).1
          · exact (nodup_bound_concat s.assignments s.nextAssignmentId _
              hinv.2.1 hinv.2.2 rfl).2
        · rw [if_neg hst] at h; exact absurd h (by simp)
      · rw [if_neg hrole] at h; exact absurd h (by simp)

theorem check_in_asset_inv (s s' : State) (u : User) (aid : Nat) (now : Int)
    (r : Assignment)
    (h : check_in_asset_by_asset_id s u aid now = .ok (s', r))
    (hinv : Inv s) : Inv s' := by
  unfold check_in_asset_by_asset_id at h
  cases hA : getAsset s aid with
  | none => rw [hA] at h; exact absurd h (by simp)
  | some asset =>
    rw [hA] at h
    simp only at h
    by_cases hrole : has_role u "CheckInOutAsset" asset.labels = true
    · rw [if_pos hrole] at h
      cases hM : get_asset_assignment s aid with
      | none => rw [hM] at h; exact absurd h (by simp)
      | some asg =>
        rw [hM] at h
        simp only at h
        by_cases hst : asset.status = "In Use"
        · rw [if_pos hst] at h
          simp only [Except.ok.injEq, Prod.mk.injEq] at h
          obtain ⟨hs', _⟩ := h
          rw [← hs']
          have haid : asset.id = aid := by
            have := List.find?_some hA
            simpa using this
          have hasgmem : asg ∈ s.assignments := List.mem_of_find?_eq_some hM
          have hasgaid : asg.asset_id = aid := by
            have := List.find?_some hM
            simp only [Bool.and_eq_true, beq_iff_eq] at this
            exact this.2
          refine ⟨?_, ?_, ?_⟩
          · exact coherent_check_in s asset.id asg.id now hinv.2.1
              ⟨asg, hasgmem, rfl, by rw [hasgaid, haid]⟩ hinv.1
          · exact (nodup_bound_map_return s.assignments asg.id now
              s.nextAssignmentId hinv.2.1 hinv.2.2).1
          · exact (nodup_bound_map_return s.assignments asg.id now
              s.nextAssignmentId hinv.2.1 hinv.2.2).2
        · rw [if_neg hst] at h; exact absurd h (by simp)
    · rw [if_neg hrole] at h; exact absurd h (by simp)

theorem check_in_assignment_inv (s s' : State) (u : User) (gid : Nat)
    (now : Int) (r : Assignment)
    (h : check_in_asset_by_assignment_id s u gid now = .ok (s', r))
    (hinv : Inv s) : Inv s' := by
  unfold check_in_asset_by_assignment_id at h
  cases hG : getAssignmentById s gid with
  | none => rw [hG] at h; exact absurd h (by simp)
  | some asg =>
    rw [hG] at h
    simp only at h
    cases hA : getAsset s asg.asset_id with
    | none => rw [hA] at h; exact absurd h (by simp)
    | some asset =>
      rw [hA] at h
      simp only at h
      by_cases hrole : has_role u "CheckInOutAsset" asset.labels = true
      · rw [if_pos hrole] at h
        by_cases hst : asset.status = "In Use"
        · rw [if_pos hst] at h
          simp only [Except.ok.injEq, Prod.mk.injEq] at h
          obtain ⟨hs', _⟩ := h
          rw [← hs']
          have haid : asset.id = asg.asset_id := by
            have := List.find?_some hA
            simpa using this
          have hasgmem : asg ∈ s.assignments := List.mem_of_find?_eq_some hG
          refine ⟨?_, ?_, ?_⟩
          · exact coherent_check_in s asset.id asg.id now hinv.2.1
              ⟨asg, hasgmem, rfl, haid.symm⟩ hinv.1
          · exact (nodup_bound_map_return s.assignments asg.id now
              s.nextAssignmentId hinv.2.1 hinv.2.2).1
          · exact (nodup_bound_map_return s.assignments asg.id now
              s.nextAssignmentId hinv.2.1 hinv.2.2).2
        · rw [if_neg hst] at h; exact absurd h (by simp)
      · rw [if_neg hrole] at h; exact absurd h (by simp)

theorem approve_request_inv (s s' : State) (u : User) (rid : Nat) (r : Request)
    (h : approve_request s u rid = .ok (s', r)) (hinv : Inv s) : Inv s' := by
  unfold approve_request at h
  cases hR : getRequest s rid with
  | none => rw [hR] at h; exact absurd h (by simp)
  | some req =>
    rw [hR] at h
    simp only at h
    by_cases hp : req.status = "Pending"
    · rw [if_pos hp] at h
      cases hA : getAsset s req.asset_id with
      | none => rw [hA] at h; exact absurd h (by simp)
      | some asset =>
        rw [hA] at h
        simp only at h
        by_cases hrole : has_role u "CheckInOutAsset" asset.labels = true
        · rw [if_pos hrole] at h
          simp only [Except.ok.injEq, Prod.mk.injEq] at h
          obtain ⟨hs', _⟩ := h
          rw [← hs']
          refine ⟨?_, hinv.2.1, hinv.2.2⟩
          refine coherent_status_change s _
            (fun b => if b.id == asset.id then { b with status := "Reserved" } else b)
            rfl ?_ ?_ rfl hinv.1
          · intro b
            by_cases hc : b.id = asset.id <;> simp [hc]
          · intro b hbst
            simp only at hbst
            by_cases hc : b.id = asset.id
            · rw [if_pos (by simp [hc])] at hbst
              simp at hbst
            · rwa [if_neg (by simp [hc])] at hbst
        · rw [if_neg hrole] at h; exact absurd h (by simp)
    · rw [if_neg hp] at h; exact absurd h (by simp)

theorem reject_request_inv (s s' : State) (u : User) (rid : Nat) (r : Request)
    (h : reject_request s u rid = .ok (s', r)) (hinv : Inv s) : Inv s' := by
  unfold reject_request at h
  cases hR : getRequest s rid with
  | none => rw [hR] at h; exact absurd h (by simp)
  | some req =>
    rw [hR] at h
    simp only at h
    by_cases hp : req.status = "Pending"
    · rw [if_pos hp] at h
      cases hA : getAsset s req.asset_id with
      | none => rw [hA] at h; exact absurd h (by simp)
      | some asset =>
        rw [hA] at h
        simp only at h
        by_cases hrole : has_role u "CheckInOutAsset" asset.labels = true
        · rw [if_pos hrole] at h
          simp only [Except.ok.injEq, Prod.mk.injEq] at h
          obtain ⟨hs', _⟩ := h
          rw [← hs']
          exact ⟨fun x hx hst => hinv.1 x hx hst, hinv.2.1, hinv.2.2⟩
        · rw [if_neg hrole] at h; exact absurd h (by simp)
    · rw [if_neg hp] at h; exact absurd h (by simp)

theorem maint_out_inv (s s' : State) (u : User) (aid : Nat) (r : Asset)
    (h : check_out_asset_for_maintenance s u aid = .ok (s', r))
    (hinv : Inv s) : Inv s' := by
  unfold check_out_asset_for_maintenance at h
  cases hA : getAsset s aid with
  | none => rw [hA] at h; exact absurd h (by simp)
  | some asset =>
    rw [hA] at h
    simp only at h
    by_cases hrole : has_role u "CheckInOutAsset" asset.labels = true
    · rw [if_pos hrole] at h
      by_cases hst : asset.status = "Available"
      · rw [if_pos hst] at h
        simp only [Except.ok.injEq, Prod.mk.injEq] at h
        obtain ⟨hs', _⟩ := h
        rw [← hs']
        refine ⟨?_, hinv.2.1, hinv.2.2⟩
        refine coherent_status_change s _
          (fun b => if b.id == asset.id then { b with status := "Maintenance" } else b)
          rfl ?_ ?_ rfl hinv.1
        · intro b
          by_cases hc : b.id = asset.id <;> simp [hc]
        · intro b hbst
          simp only at hbst
          by_cases hc : b.id = asset.id
          · rw [if_pos (by simp [hc])] at hbst
            simp at hbst
          · rwa [if_neg (by simp [hc])] at hbst
      · rw [if_neg hst] at h; exact absurd h (by simp)
    · rw [if_neg hrole] at h; exact absurd h (by simp)

theorem maint_in_inv (s s' : State) (u : User) (aid : Nat) (now : Int)
    (r : Asset)
    (h : check_in_asset_from_maintenance s u aid now = .ok (s', r))
    (hinv : Inv s) : Inv s' := by
  unfold check_in_asset_from_maintenance at h
  cases hA : getAsset s aid with
  | none => rw [hA] at h; exact absurd h (by simp)
  | some asset =>
    rw [hA] at h
    simp only at h
    by_cases hrole : has_role u "CheckInOutAsset" asset.labels = true
    · rw [if_pos hrole] at h
      by_cases hst : asset.status = "Maintenance"
      · rw [if_pos hst] at h
        simp only [Except.ok.injEq, Prod.mk.injEq] at h
        obtain ⟨hs', _⟩ := h
        rw [← hs']
        refine ⟨?_, hinv.2.1, hinv.2.2⟩
        refine coherent_status_change s _
          (fun b => if b.id == asset.id then
            { b with status := "Available", last_maintenance := now } else b)
          rfl ?_ ?_ rfl hinv.1
        · intro b
          by_cases hc : b.id = asset.id <;> simp [hc]
        · intro b hbst
          simp only at hbst
          by_cases hc : b.id = asset.id
          · rw [if_pos (by simp [hc])] at hbst
            simp at hbst
          · rwa [if_neg (by simp [hc])] at hbst
      · rw [if_neg hst] at h; exact absurd h (by simp)
    · rw [if_neg hrole] at h; exact absurd h (by simp)

/-- The inductive invariant holds in every reachable state. -/
theorem reachable_inv (s : State) (h : Reachable s) : Inv s := by
  induction h with
  | init s hi =>
    refine ⟨fun a ha hst => absurd hst (hi.2 a ha), ?_, ?_⟩
    · rw [hi.1]
      exact List.nodup_nil
    · rw [hi.1]
      intro g hg
      exact absurd hg (List.not_mem_nil g)
  | step s s' _ hs ih =>
    cases hs with
    | checkOut u aid uid days today r h =>
      exact check_out_asset_inv s s' u aid uid days today r h ih
    | checkOutRequest u rid days today r h =>
      exact check_out_request_inv s s' u rid days today r h ih
    | checkInAsset u aid now r h =>
      exact check_in_asset_inv s s' u aid now r h ih
    | checkInAssignment u gid now r h =>
      exact check_in_assignment_inv s s' u gid now r h ih
    | maintOut u aid r h =>
      exact maint_out_inv s s' u aid r h ih
    | maintIn u aid now r h =>
      exact maint_in_inv s s' u aid now r h ih
    | approve u rid r h =>
      exact approve_request_inv s s' u rid r h ih
    | reject u rid r h =>
      exact reject_request_inv s s' u rid r h ih

/-- C5 amended.  In every state reachable from a fresh database through the
public lifecycle operations, an asset with status `In Use` has an active
assignment (`returned_at` null); the converse direction of the spec's
biconditional fails (see the counterexample). -/
theorem reachable_in_use_has_active (s : State) (h : Reachable s) :
    ∀ a ∈ s.assets, a.status = "In Use" → ActiveAssignmentFor s a.id :=
  (reachable_inv s h).1

/-- Initial state for the C5 trace: one available asset, one pending
request, no assignments. -/
def c5s0 : State :=
  { assets := [⟨1, "Available", [], 0, 30, false⟩]
    requests := [⟨1, 1, 2, "Pending", none⟩]
    assignments := []
    nextAssignmentId := 1 }

/-- The acting principal of the C5 trace. -/
def c5u : User := ⟨5, [⟨"CheckInOutAsset", "*"⟩]⟩

/-- After checking out asset 1: `In Use`, one active assignment. -/
def c5s1 : State :=
  { assets := [⟨1, "In Use", [], 0, 30, false⟩]
    requests := [⟨1, 1, 2, "Pending", none⟩]
    assignments := [⟨1, 1, 2, 5, 7, none, none⟩]
    nextAssignmentId := 2 }

/-- After approving the still-pending request on the checked-out asset: the
asset is `Reserved` while its assignment is still active. -/
def c5s2 : State :=
  { assets := [⟨1, "Reserved", [], 0, 30, false⟩]
    requests := [⟨1, 1, 2, "Approved", some 5⟩]
    assignments := [⟨1, 1, 2, 5, 7, none, none⟩]
    nextAssignmentId := 2 }

theorem reachable_in_use_has_active_witness : ActiveAssignmentFor c5s1 1 :=
  reachable_in_use_has_active c5s1
    (Reachable.step c5s0 c5s1 (Reachable.init c5s0 ⟨rfl, by decide⟩)
      (Step.checkOut c5s0 c5s1 c5u 1 2 7 0 ⟨1, 1, 2, 5, 7, none, none⟩
        (by decide)))
    ⟨1, "In Use", [], 0, 30, false⟩ (by decide) rfl

/-- C5 counterexample.  The biconditional `In Use ⇔ active assignment
exists` is violated in a reachable state: check out an available asset (it
becomes `In Use` with an active assignment), then approve a pending request
on that same asset — `approve_request` checks only the request's status, so
the asset is moved to `Reserved` while its assignment stays active. -/
theorem status_assignment_coherence_counterexample :
    Reachable c5s2 ∧
    ¬ (∀ a ∈ c5s2.assets,
        (a.status = "In Use" ↔ ActiveAssignmentFor c5s2 a.id)) := by
  constructor
  · refine Reachable.step c5s1 c5s2
      (Reachable.step c5s0 c5s1 (Reachable.init c5s0 ⟨rfl, by decide⟩)
        (Step.checkOut c5s0 c5s1 c5u 1 2 7 0 ⟨1, 1, 2, 5, 7, none, none⟩
          (by decide)))
      (Step.approve c5s1 c5s2 c5u 1 ⟨1, 1, 2, "Approved", some 5⟩ (by decide))
  · intro hcoh
    have hactive : ActiveAssignmentFor c5s2 1 :=
      ⟨⟨1, 1, 2, 5, 7, none, none⟩, by decide, rfl, rfl⟩
    have := (hcoh ⟨1, "Reserved", [], 0, 30, false⟩ (by decide)).2 hactive
    exact absurd this (by decide)

end AssetManager
